import Mathlib

/-!
# Verification of the PDF-RAG ingestion/query pipeline

A shallow embedding of the repository's core (src/main.py, src/vector_db.py,
src/data_loader.py) together with proofs about the properties claimed in the
specification.

Modelling conventions:
* Machine integers are `Nat` with explicit `% 2^32` where the source's
  arithmetic (SHA-1 inside `uuid.uuid5`) wraps.
* Embedding vectors are `List Int` (the source's floats are produced by the
  external embedder, which is abstract here; similarity ranking only needs
  exact products and comparisons of coordinates, and the cosine ordering is
  computed division- and square-root-free over ℤ).
* External collaborators (SentenceTransformer, the Qdrant server engine, the
  Inngest admission/retry engine) are not in the repository's sources; where a
  claim depends on them they are modelled from the specification's interface
  description, and the relevant definitions say so in their doc comments.
-/

/-! ## Bytes, UTF-8, SHA-1 and uuid5

`main.py` derives point ids with `str(uuid.uuid5(uuid.NAMESPACE_URL,
f"{source_id}:{i}"))`.  `uuid.uuid5(ns, name)` is the RFC 4122 version-5 UUID:
the SHA-1 digest of `ns.bytes ++ name.encode("utf-8")`, truncated to 16 bytes,
with the version nibble forced to 5 and the variant bits forced to `10`,
rendered as lowercase hex `8-4-4-4-12`.  The implementation below follows that
algorithm exactly (bitwise `AND`/`OR` with constant masks on byte values are
written with `%` and `+`, which coincide on bytes: `b &&& 0x0F = b % 16`,
`x ||| 0x50 = x + 0x50` when `x < 16`, etc.). -/

/-- UTF-8 encoding of a single character (RFC 3629), as byte values. -/
def charUtf8 (c : Char) : List Nat :=
  let n := c.toNat
  if n < 128 then [n]
  else if n < 2048 then [192 + n / 64, 128 + n % 64]
  else if n < 65536 then [224 + n / 4096, 128 + n / 64 % 64, 128 + n % 64]
  else [240 + n / 262144, 128 + n / 4096 % 64, 128 + n / 64 % 64, 128 + n % 64]

/-- UTF-8 encoding of a string, as the list of its byte values. -/
def utf8Bytes (s : String) : List Nat :=
  s.data.foldr (fun c acc => charUtf8 c ++ acc) []

/-- `2^32`, the modulus of SHA-1's word arithmetic. -/
def w32 : Nat := 4294967296

/-- Rotate a 32-bit word left by `n` bits. -/
def rotl32 (n x : Nat) : Nat := ((x <<< n) ||| (x >>> (32 - n))) % w32

/-- Big-endian byte rendering of `n` into exactly `k` bytes. -/
def bytesBE (k n : Nat) : List Nat :=
  (List.range k).map (fun i => (n >>> (8 * (k - 1 - i))) % 256)

/-- Big-endian 32-bit word from a list of byte values. -/
def wordOfBytes (bs : List Nat) : Nat := bs.foldl (fun acc b => acc * 256 + b % 256) 0

/-- SHA-1 message padding: `0x80`, zeros to 56 mod 64, 8-byte big-endian bit length. -/
def sha1pad (msg : List Nat) : List Nat :=
  let len := msg.length
  let z := (120 - (len + 1) % 64) % 64
  msg ++ [128] ++ List.replicate z 0 ++ bytesBE 8 (8 * len)

/-- Split a padded message into 64-byte blocks. -/
def blocksOf (padded : List Nat) : List (List Nat) :=
  (List.range (padded.length / 64)).map (fun i => (padded.drop (64 * i)).take 64)

/-- SHA-1 message schedule: 16 big-endian words extended to 80. -/
def sha1schedule (block : List Nat) : List Nat :=
  let ws := (List.range 16).map (fun j => wordOfBytes ((block.drop (4 * j)).take 4))
  (List.range 64).foldl (fun acc _ =>
    let n := acc.length
    acc ++ [rotl32 1 ((acc.getD (n - 3) 0) ^^^ (acc.getD (n - 8) 0) ^^^
      (acc.getD (n - 14) 0) ^^^ (acc.getD (n - 16) 0))]) ws

/-- SHA-1 round function `f` for round `i`. -/
def sha1f (i b c d : Nat) : Nat :=
  if i < 20 then (b &&& c) ||| (((w32 - 1) ^^^ b) &&& d)
  else if i < 40 then b ^^^ c ^^^ d
  else if i < 60 then (b &&& c) ||| (b &&& d) ||| (c &&& d)
  else b ^^^ c ^^^ d

/-- SHA-1 round constant for round `i`. -/
def sha1k (i : Nat) : Nat :=
  if i < 20 then 1518500249
  else if i < 40 then 1859775393
  else if i < 60 then 2400959708
  else 3395469782

/-- One SHA-1 compression round on the state `(a, b, c, d, e)`. -/
def sha1round (st : Nat × Nat × Nat × Nat × Nat) (iw : Nat × Nat) :
    Nat × Nat × Nat × Nat × Nat :=
  let (a, b, c, d, e) := st
  let (i, w) := iw
  ((rotl32 5 a + sha1f i b c d + e + sha1k i + w) % w32, a, rotl32 30 b, c, d)

/-- Process one 64-byte block, updating the five hash words. -/
def sha1block (h : Nat × Nat × Nat × Nat × Nat) (block : List Nat) :
    Nat × Nat × Nat × Nat × Nat :=
  let (h0, h1, h2, h3, h4) := h
  let (a, b, c, d, e) := ((List.range 80).zip (sha1schedule block)).foldl sha1round h
  ((h0 + a) % w32, (h1 + b) % w32, (h2 + c) % w32, (h3 + d) % w32, (h4 + e) % w32)

/-- SHA-1 digest (20 bytes) of a byte list. -/
def sha1 (msg : List Nat) : List Nat :=
  let init : Nat × Nat × Nat × Nat × Nat :=
    (1732584193, 4023233417, 2562383102, 271733878, 3285377520)
  let (h0, h1, h2, h3, h4) := (blocksOf (sha1pad msg)).foldl sha1block init
  bytesBE 4 h0 ++ bytesBE 4 h1 ++ bytesBE 4 h2 ++ bytesBE 4 h3 ++ bytesBE 4 h4

/-- The bytes of `uuid.NAMESPACE_URL` (`6ba7b811-9dad-11d1-80b4-00c04fd430c8`). -/
def NAMESPACE_URL : List Nat :=
  [107, 167, 184, 17, 157, 173, 17, 209, 128, 180, 0, 192, 79, 212, 48, 200]

/-- The bytes of `uuid.NAMESPACE_DNS` (`6ba7b810-9dad-11d1-80b4-00c04fd430c8`),
used only to validate the uuid5 embedding against the RFC test vector. -/
def NAMESPACE_DNS : List Nat :=
  [107, 167, 184, 16, 157, 173, 17, 209, 128, 180, 0, 192, 79, 212, 48, 200]

/-- The 16 bytes of `uuid.uuid5(ns, name)`: truncated SHA-1 of
`ns ++ utf8(name)` with the version nibble set to 5 (byte 6 becomes
`(b &&& 0x0F) ||| 0x50 = b % 16 + 80`) and the variant bits set to `10`
(byte 8 becomes `(b &&& 0x3F) ||| 0x80 = b % 64 + 128`). -/
def uuid5bytes (ns : List Nat) (name : String) : List Nat :=
  let d := sha1 (ns ++ utf8Bytes name)
  (List.range 16).map (fun i =>
    let b := d.getD i 0
    if i = 6 then b % 16 + 80
    else if i = 8 then b % 64 + 128
    else b)

/-- Lowercase hex digit. -/
def hexChar (n : Nat) : Char :=
  if n < 10 then Char.ofNat (48 + n) else Char.ofNat (87 + n)

/-- Two lowercase hex digits of a byte value. -/
def byteHex (b : Nat) : String := String.mk [hexChar (b / 16 % 16), hexChar (b % 16)]

/-- Render 16 UUID bytes in the canonical `8-4-4-4-12` lowercase hex form,
exactly as Python's `str(uuid.UUID(...))` does. -/
def uuidFormat (bs : List Nat) : String :=
  String.join ((bs.take 4).map byteHex) ++ "-" ++
  String.join (((bs.drop 4).take 2).map byteHex) ++ "-" ++
  String.join (((bs.drop 6).take 2).map byteHex) ++ "-" ++
  String.join (((bs.drop 8).take 2).map byteHex) ++ "-" ++
  String.join ((bs.drop 10).map byteHex)

/-- `str(uuid.uuid5(ns, name))`. -/
def uuid5 (ns : List Nat) (name : String) : String := uuidFormat (uuid5bytes ns name)

/-! ## Data model

`main.py` imports `RAGChunkAndSrc`, `RAGUpsertResult` and `RAGSearchResult`
from `custom_types.py`, which is not among the provided sources.  Modelled from
the spec: they are plain records whose fields are exactly the ones `main.py`
uses (`chunks`/`sources_id`, `ingested`, `contexts`/`sources`), matching the
output shapes of §6. -/

/-- A stored point's payload.  The ingest path writes `{"source": source_id,
"text": chunks[i]}` (src/main.py:88); `search_vectors` reads both keys
defensively with `payload.get(key, '')`, so the fields are optional here. -/
structure Payload where
  source : Option String
  text : Option String
deriving DecidableEq, Repr

/-- A persisted vector-store point: id, embedding vector, payload.  The
payload itself is optional because `search_vectors` guards with
`getattr(res, 'payload', {}) or {}`. -/
structure Point where
  id : String
  vector : List Int
  payload : Option Payload
deriving DecidableEq, Repr

/-- Output of the load-and-chunk step (`custom_types.RAGChunkAndSrc`; the
field really is spelled `sources_id` in the source). -/
structure RAGChunkAndSrc where
  chunks : List String
  sources_id : String
deriving DecidableEq, Repr

/-- Output of the embed-and-upsert step (`custom_types.RAGUpsertResult`). -/
structure RAGUpsertResult where
  ingested : Nat
deriving DecidableEq, Repr

/-- Output of the embed-and-search step (`custom_types.RAGSearchResult`). -/
structure RAGSearchResult where
  contexts : List String
  sources : List String
deriving DecidableEq, Repr

/-! ## The vector store: upsert

The Qdrant server itself is an external collaborator.  Modelled from the spec:
`upsert` is "bulk insert-or-replace keyed by `Point.id`" (§4.2); the
collection is kept as the insertion-ordered list of live points, and upserting
a point overwrites the stored point carrying the same id in place (or appends
a fresh point at the end). -/

/-- Replace `q` by `p` when they carry the same id. -/
def replacePt (p q : Point) : Point := if q.id == p.id then p else q

/-- Insert-or-replace a single point, keyed by id. -/
def upsertOne (db : List Point) (p : Point) : List Point :=
  if db.any (fun q => q.id == p.id) then db.map (replacePt p) else db ++ [p]

/-- Upsert a batch of points in order. -/
def upsertPoints (db : List Point) (ps : List Point) : List Point := ps.foldl upsertOne db

/-- `QdrantStorage.upsert_vectors` (src/vector_db.py:24-39): combine each id,
vector and payload into a point (`PointStruct(id=ids[i], vector=vectors[i],
payload=payloads[i])` for `i in range(len(ids))`) and send the batch to the
store. -/
def QdrantStorage.upsert_vectors (db : List Point) (ids : List String)
    (vectors : List (List Int)) (payloads : List Payload) : List Point :=
  let points := (List.range ids.length).map (fun i =>
    Point.mk (ids.getD i "") (vectors.getD i []) (some (payloads.getD i (Payload.mk none none))))
  upsertPoints db points

/-! ## The ingest pipeline's `_upsert` step (src/main.py:75-99) -/

/-- The deterministic ids derived in `_upsert` (src/main.py:85):
`[str(uuid.uuid5(uuid.NAMESPACE_URL, f"{source_id}:{i}")) for i in range(len(chunks))]`. -/
def ingestIds (source_id : String) (n : Nat) : List String :=
  (List.range n).map (fun i => uuid5 NAMESPACE_URL (source_id ++ ":" ++ toString i))

/-- The payloads built in `_upsert` (src/main.py:88):
`[{"source": source_id, "text": chunks[i]} for i in range(len(chunks))]`. -/
def ingestPayloads (source_id : String) (chunks : List String) : List Payload :=
  (List.range chunks.length).map (fun i => Payload.mk (some source_id) (some (chunks.getD i "")))

/-- The `_upsert` step of `rag_ingest_pdf`: embed the chunks, derive the ids
and payloads, upsert into the store, and report the ingested count.  `embed`
stands for the external SentenceTransformer (`embed_texts`,
src/data_loader.py:37-50); per §6 it is a deterministic function producing one
vector per input text, so it is threaded in elementwise as a parameter. -/
def ragUpsert (embed : String → List Int) (cs : RAGChunkAndSrc) (db : List Point) :
    List Point × RAGUpsertResult :=
  let chunks := cs.chunks
  let source_id := cs.sources_id
  let vecs := chunks.map embed
  let ids := ingestIds source_id chunks.length
  let payloads := ingestPayloads source_id chunks
  (QdrantStorage.upsert_vectors db ids vecs payloads, RAGUpsertResult.mk chunks.length)

/-! ## Idempotence of batch upsert

Replaying an identical batch of points leaves the store unchanged: after the
first pass every batch id is present, so the second pass only rewrites each
stored point to the value it already has. -/

/-- Apply a whole batch to a single stored point: each batch point with the
same id overwrites it in turn. -/
def batchApply (ps : List Point) (q : Point) : Point :=
  ps.foldl (fun c p => replacePt p c) q

/-- Is some stored point carrying id `i`? -/
def hasId (db : List Point) (i : String) : Bool := db.any (fun q => q.id == i)

/-! ## The vector store: similarity search

The ranking itself happens inside the external Qdrant server
(`client.search`, called from src/vector_db.py:47-52).  Modelled from the
spec: `search` "computes cosine similarity between `query_vector` and all
stored vectors, returns the `top_k` highest-similarity points ordered
descending by similarity (ties broken by insertion/id order — must be
deterministic)" (§4.2).

Cosine similarity of `q` and `v` is `dot q v / (‖q‖ * ‖v‖)`.  To compare two
stored vectors only `dot q v / ‖v‖` matters (`‖q‖ > 0` is a common factor),
and that ordering is captured exactly by the square-root-free rational key
`sign (dot q v) * (dot q v)^2 / (dot v v)`, which is monotone in the
similarity.  The comparison of two such keys is done division-free by cross
multiplication over ℤ (denominators `dot v v` are non-negative), with a
zero-norm vector (no well-defined cosine; Qdrant rejects them) keyed as `0`. -/

/-- Dot product of two integer vectors (extra coordinates of the longer
vector are ignored; with mismatched dimensions neither the model nor the
server has a meaningful answer). -/
def dotZ (a b : List Int) : Int := ((a.zip b).map (fun p => p.1 * p.2)).sum

/-- Squared euclidean norm. -/
def normSqZ (a : List Int) : Int := dotZ a a

/-- `sign s * s^2`: numerator of the square-root-free similarity key. -/
def signedSq (s : Int) : Int := if s < 0 then -(s * s) else s * s

/-- `value (n, d) ≤ value (n', d')` for fractions with non-negative
denominators, under the convention `value (n, 0) = 0`; division-free. -/
def fracLe (n1 d1 n2 d2 : Int) : Prop :=
  if d1 = 0 then (if d2 = 0 then True else 0 ≤ n2)
  else if d2 = 0 then n1 ≤ 0
  else n1 * d2 ≤ n2 * d1

instance (n1 d1 n2 d2 : Int) : Decidable (fracLe n1 d1 n2 d2) :=
  inferInstanceAs (Decidable (if d1 = 0 then (if d2 = 0 then True else 0 ≤ n2)
    else if d2 = 0 then n1 ≤ 0 else n1 * d2 ≤ n2 * d1))

/-- The similarity key of stored vector `v` against query `q`, as a
numerator/denominator pair (the key's value is `signedSq (dot q v) / normSq v`). -/
def keyNum (q v : List Int) : Int := signedSq (dotZ q v)

/-- Denominator of the similarity key. -/
def keyDen (v : List Int) : Int := normSqZ v

/-- "Ranks at least as high": `p1`'s similarity key is at least `p2`'s. -/
def simRel (q : List Int) (p1 p2 : Point) : Prop :=
  fracLe (keyNum q p2.vector) (keyDen p2.vector) (keyNum q p1.vector) (keyDen p1.vector)

instance (q : List Int) : DecidableRel (simRel q) := fun p1 p2 =>
  inferInstanceAs (Decidable (fracLe (keyNum q p2.vector) (keyDen p2.vector)
    (keyNum q p1.vector) (keyDen p1.vector)))

/-- Modelled from the spec: the Qdrant engine's search — all stored points,
stably sorted by descending cosine-similarity key (insertion order breaks
ties), truncated to `limit`. -/
def qdrantSearch (db : List Point) (query : List Int) (limit : Nat) : List Point :=
  (List.insertionSort (simRel query) db).take limit

/-- `res.payload` read defensively: `getattr(res, 'payload', {}) or {}`
(src/vector_db.py:60). -/
def payloadOf (p : Point) : Payload := p.payload.getD (Payload.mk none none)

/-- `payload.get('text', '')` (src/vector_db.py:61). -/
def textOf (p : Point) : String := (payloadOf p).text.getD ""

/-- `payload.get('source', '')` (src/vector_db.py:62). -/
def sourceOf (p : Point) : String := (payloadOf p).source.getD ""

/-- One iteration of the result-extraction loop of `search_vectors`
(src/vector_db.py:59-66): skip the hit entirely unless its text is non-empty;
then record the text and, when non-empty, add the source to the deduplicated
source collection.  Python's `sources` is a `set`; its iteration order is
unspecified, modelled deterministically as first-occurrence order. -/
def extractStep (acc : List String × List String) (res : Point) : List String × List String :=
  let text := textOf res
  let source := sourceOf res
  if text = "" then acc
  else (acc.1 ++ [text],
    if source = "" then acc.2 else if source ∈ acc.2 then acc.2 else acc.2 ++ [source])

/-- `QdrantStorage.search_vectors` (src/vector_db.py:41-69): ask the engine
for the `top_k` most similar points and run the extraction loop.  `top_k` is
an `Int` because the caller passes an arbitrary `int(...)` from the event
data; the wrapper forwards it without any validation (a non-positive limit
reaches the engine, modelled as "take nothing"). -/
def QdrantStorage.search_vectors (db : List Point) (query_vector : List Int)
    (top_k : Int) : RAGSearchResult :=
  let results := qdrantSearch db query_vector top_k.toNat
  let acc := results.foldl extractStep ([], [])
  RAGSearchResult.mk acc.1 acc.2

/-- The text a hit contributes to `contexts`, if any. -/
def textOpt (p : Point) : Option String := if textOf p = "" then none else some (textOf p)

/-! ## Collection setup (`QdrantStorage.__init__`, src/vector_db.py:5-22)

The server-side collection registry is modelled as the optional configuration
of the one named collection (`"docs"`): `none` when the collection does not
exist yet.  The constructor's only interaction with it is
`collection_exists` / `create_collection`. -/

/-- Qdrant distance metric (`Distance.COSINE` is the only one the source uses). -/
inductive Distance
  | cosine
deriving DecidableEq, Repr

/-- `VectorParams(size=…, distance=…)` of the collection. -/
structure CollectionConfig where
  size : Nat
  distance : Distance
deriving DecidableEq, Repr

/-- `QdrantStorage.__init__`: if the collection does not exist, create it with
the requested dimensionality and cosine distance; otherwise leave the existing
collection exactly as it is.  The source has no error path here: nothing
compares an existing collection's size with `dims`. -/
def QdrantStorage.init (server : Option CollectionConfig) (dims : Nat) :
    Option CollectionConfig :=
  match server with
  | none => some (CollectionConfig.mk dims Distance.cosine)
  | some c => some c

/-! ## Admission control (throttle / rate limit)

`rag_ingest_pdf` is registered with
`@inngest_client.create_function(fn_id="RAG: Ingest PDF",
trigger=inngest.TriggerEvent(event="rag/ingest_pdf"))` (src/main.py:31-34) —
no `throttle=` and no `rate_limit=` argument is passed; the
`inngest.Throttle(count=2, period=minutes(1))` /
`inngest.RateLimit(limit=1, period=hours(2))` controls appear only inside a
comment (src/main.py:35-41).  Likewise `rag_query_pdf_ai` (src/main.py:125-128)
is registered with no admission controls.

The gate evaluation itself happens in the external Inngest engine.  Modelled
from the spec (§4.3): a rolling-window throttle admits an event when fewer
than `count` events were admitted within the trailing `period`, across all
sources; a per-key rate limit admits an event when fewer than `limit` events
with the same `source_id` were admitted within the trailing `period`.  An
event failing either gate is deferred (kept, never dropped). -/

/-- `inngest.Throttle(count=…, period=…)` (period in seconds). -/
structure ThrottleConfig where
  count : Nat
  periodSec : Nat
deriving DecidableEq, Repr

/-- `inngest.RateLimit(limit=…, period=…)` keyed by `event.data.source_id`
(period in seconds). -/
structure RateLimitConfig where
  limit : Nat
  periodSec : Nat
deriving DecidableEq, Repr

/-- The admission-relevant part of an Inngest function registration. -/
structure FunctionConfig where
  fn_id : String
  trigger : String
  throttle : Option ThrottleConfig
  rate_limit : Option RateLimitConfig
deriving DecidableEq, Repr

/-- The registration of `rag_ingest_pdf` (src/main.py:31-34): trigger only,
no admission controls. -/
def rag_ingest_pdf_config : FunctionConfig :=
  FunctionConfig.mk "RAG: Ingest PDF" "rag/ingest_pdf" none none

/-- The registration of `rag_query_pdf_ai` (src/main.py:125-128): trigger
only, no admission controls. -/
def rag_query_pdf_ai_config : FunctionConfig :=
  FunctionConfig.mk "RAG: Query PDF" "rag/query_pdf_ai" none none

/-- An ingestion event: submission time (seconds) and its source key. -/
structure IngestEvent where
  time : Nat
  source_id : String
deriving DecidableEq, Repr

/-- Does the global throttle admit `e`, given the already-admitted events? -/
def throttleOk (cfg : Option ThrottleConfig) (admitted : List IngestEvent)
    (e : IngestEvent) : Bool :=
  match cfg with
  | none => true
  | some t =>
    decide ((admitted.filter (fun h => decide (e.time < h.time + t.periodSec))).length < t.count)

/-- Does the per-key rate limit admit `e`, given the already-admitted events? -/
def rateLimitOk (cfg : Option RateLimitConfig) (admitted : List IngestEvent)
    (e : IngestEvent) : Bool :=
  match cfg with
  | none => true
  | some r =>
    decide ((admitted.filter (fun h =>
      (h.source_id == e.source_id) && decide (e.time < h.time + r.periodSec))).length < r.limit)

/-- Evaluate the gates over a submission sequence (in submission order),
tagging each event `true` (admitted) or `false` (deferred). -/
def processEventsAux (cfg : FunctionConfig) (admitted : List IngestEvent) :
    List IngestEvent → List (IngestEvent × Bool)
  | [] => []
  | e :: rest =>
    let ok := throttleOk cfg.throttle admitted e && rateLimitOk cfg.rate_limit admitted e
    (e, ok) :: processEventsAux cfg (if ok then admitted ++ [e] else admitted) rest

/-- Gate decisions for a submission sequence, starting from an empty window. -/
def processEvents (cfg : FunctionConfig) (events : List IngestEvent) :
    List (IngestEvent × Bool) :=
  processEventsAux cfg [] events

/-- Number of admitted events in a decision list. -/
def admittedCount (l : List (IngestEvent × Bool)) : Nat := (l.filter (fun x => x.2)).length

/-- Number of deferred events in a decision list. -/
def deferredCount (l : List (IngestEvent × Bool)) : Nat := (l.filter (fun x => !x.2)).length

/-! ## The orchestrator (run state machine)

The pipeline runner is the external Inngest engine (`ctx.step.run`,
src/main.py:105-116).  Modelled from the spec (§4.4, §7): each step is
attempted up to a bounded attempt cap; an `InputError` (non-transient, e.g.
the input file absent) fails the run immediately without further attempts,
while a `TransientError` is retried until the cap is exhausted; steps run in
order and a failed step halts the pipeline. -/

/-- Error classes of §7 that a step can raise (`InputError` / `TransientError`). -/
inductive StepError
  | input
  | transient
deriving DecidableEq, Repr

/-- Terminal state of a run. -/
inductive RunState
  | completed (ingested : Nat)
  | failed (e : StepError)
deriving DecidableEq, Repr

/-- Attempt a step up to `cap` times: `outcome k` is what the step does on
attempt `k` (0-based).  Returns the final step result together with the
number of attempts actually made.  An `input` error stops immediately; a
`transient` error is reattempted while attempts remain. -/
def attemptStep {α : Type} (outcome : Nat → Except StepError α) (start : Nat) :
    Nat → Except StepError α × Nat
  | 0 => (Except.error StepError.transient, 0)
  | n + 1 =>
    match outcome start with
    | Except.ok a => (Except.ok a, 1)
    | Except.error StepError.input => (Except.error StepError.input, 1)
    | Except.error StepError.transient =>
      match n with
      | 0 => (Except.error StepError.transient, 1)
      | m + 1 =>
        let r := attemptStep outcome (start + 1) (m + 1)
        (r.1, r.2 + 1)

/-- The `_load` step of `rag_ingest_pdf` (src/main.py:53-70): raise
(`FileNotFoundError`) when `os.path.exists(pdf_path)` is false — before any
loading or chunking — otherwise produce the chunk list and the source id
(`event.data.get("source_id", pdf_path)`).  `fileExists` is the ambient file
system, `loadAndChunkPdf` the external loader (src/data_loader.py:19-35). -/
def ragLoad (fileExists : String → Bool) (loadAndChunkPdf : String → List String)
    (pdf_path : String) (source_id? : Option String) : Except StepError RAGChunkAndSrc :=
  if fileExists pdf_path then
    Except.ok (RAGChunkAndSrc.mk (loadAndChunkPdf pdf_path) (source_id?.getD pdf_path))
  else Except.error StepError.input

/-- Run the ingest pipeline: the `Load and Chunk PDF` step, then the
`Embed-and-upsert` step (src/main.py:105-116), each under the engine's
attempt policy with attempt cap `cap`.  Returns the terminal run state and
the number of attempts made for each step. -/
def runIngest (loadOutcome : Nat → Except StepError RAGChunkAndSrc)
    (upsertOutcome : RAGChunkAndSrc → Nat → Except StepError RAGUpsertResult)
    (cap : Nat) : RunState × Nat × Nat :=
  let lr := attemptStep loadOutcome 0 cap
  match lr.1 with
  | Except.error e => (RunState.failed e, lr.2, 0)
  | Except.ok cs =>
    let ur := attemptStep (upsertOutcome cs) 0 cap
    match ur.1 with
    | Except.error e => (RunState.failed e, lr.2, ur.2)
    | Except.ok r => (RunState.completed r.ingested, lr.2, ur.2)

/-! ## uuid5 ids live in a finite space

A version-5 UUID carries 16 bytes, so the derived point ids take at most
`256^16` distinct values; the map `index ↦ uuid5 (source_id ++ ":" ++ index)`
from all of ℕ can therefore not be injective. -/

/-- Big-endian base-256 value of a byte list (bytes reduced mod 256). -/
def bytesVal : List Nat → Nat
  | [] => 0
  | b :: t => b % 256 * 256 ^ t.length + bytesVal t

/-! ## Concrete stores and event sequences used in the claim proofs -/

/-- A two-point store holding one point from source `"A"` (text `tA`) and one
from source `"B"` (text `tB`), on orthogonal unit vectors. -/
def twoSourceDb (tA tB : String) : List Point :=
  [Point.mk "idA" [1, 0] (some (Payload.mk (some "A") (some tA))),
   Point.mk "idB" [0, 1] (some (Payload.mk (some "B") (some tB)))]

/-- A store whose highest-ranking hit for the query `[1, 0]` has no `text`
payload field. -/
def emptyTextDb : List Point :=
  [Point.mk "p1" [1, 0] (some (Payload.mk (some "A") none)),
   Point.mk "p2" [1, 1] (some (Payload.mk (some "A") (some "b")))]

/-- Three stored points: a normal one, one with no `text`, and one whose
`source` tag is the empty string. -/
def threePointDb : List Point :=
  [Point.mk "q1" [1, 0] (some (Payload.mk (some "A") (some "t1"))),
   Point.mk "q2" [1, 0] (some (Payload.mk (some "B") none)),
   Point.mk "q3" [1, 0] (some (Payload.mk (some "") (some "t3")))]

/-- The specification's reading of `contexts`: "the payload text of each
returned point in result order" — with no skipping.  Used as the baseline the
implementation is compared against. -/
def rankedTextsSpec (db : List Point) (q : List Int) (k : Nat) : List String :=
  (qdrantSearch db q k).map textOf

/-- Five ingestion events for five distinct sources, all within one minute. -/
def fiveEvents : List IngestEvent :=
  [IngestEvent.mk 0 "s1", IngestEvent.mk 5 "s2", IngestEvent.mk 10 "s3",
   IngestEvent.mk 15 "s4", IngestEvent.mk 20 "s5"]

/-- The commented-out throttle of src/main.py:36, as a registration:
`inngest.Throttle(count=2, period=datetime.timedelta(minutes=1))`. -/
def ingestConfigWithThrottle : FunctionConfig :=
  FunctionConfig.mk "RAG: Ingest PDF" "rag/ingest_pdf" (some (ThrottleConfig.mk 2 60)) none

/-- The commented-out rate limit of src/main.py:37-38, as a registration:
`inngest.RateLimit(limit=1, period=datetime.timedelta(hours=2))` keyed by
`event.data.source_id`. -/
def ingestConfigWithRateLimit : FunctionConfig :=
  FunctionConfig.mk "RAG: Ingest PDF" "rag/ingest_pdf" none (some (RateLimitConfig.mk 1 7200))

/-! ## Lemmas and claim theorems -/

lemma replacePt_id (p q : Point) : (replacePt p q).id = q.id := by
  unfold replacePt
  split
  · next h => exact (eq_of_beq h).symm
  · rfl

lemma batchApply_id (ps : List Point) (q : Point) : (batchApply ps q).id = q.id := by
  induction ps generalizing q with
  | nil => rfl
  | cons p t ih =>
    show (batchApply t (replacePt p q)).id = q.id
    rw [ih, replacePt_id]

lemma mem_upsertOne {db : List Point} {p q : Point} (h : q ∈ upsertOne db p) :
    q = p ∨ (q ∈ db ∧ (q.id == p.id) = false) := by
  unfold upsertOne at h
  split at h
  · next hany =>
    obtain ⟨x, hx, hfx⟩ := List.mem_map.mp h
    unfold replacePt at hfx
    split at hfx
    · exact Or.inl hfx.symm
    · next hbeq =>
      refine Or.inr ⟨hfx ▸ hx, ?_⟩
      rw [← hfx]
      exact Bool.eq_false_iff.mpr hbeq
  · next hany =>
    rcases List.mem_append.mp h with hq | hq
    · refine Or.inr ⟨hq, ?_⟩
      by_contra hne
      have : db.any (fun x => x.id == p.id) = true :=
        List.any_eq_true.mpr ⟨q, hq, eq_true_of_ne_false hne⟩
      exact hany this
    · exact Or.inl (List.mem_singleton.mp hq)

lemma upsertPoints_append_single (db : List Point) (L : List Point) (p : Point) :
    upsertPoints db (L ++ [p]) = upsertOne (upsertPoints db L) p := by
  unfold upsertPoints
  rw [List.foldl_append]
  rfl

lemma batchApply_append_single (L : List Point) (p : Point) (q : Point) :
    batchApply (L ++ [p]) q = replacePt p (batchApply L q) := by
  unfold batchApply
  rw [List.foldl_append]
  rfl

/-- Every point stored after a batch upsert is a fixed point of re-applying
the batch. -/
lemma batchApply_of_mem_upsertPoints (L : List Point) (db : List Point) (q : Point)
    (h : q ∈ upsertPoints db L) : batchApply L q = q := by
  induction L using List.reverseRecOn generalizing q with
  | nil => rfl
  | append_singleton L' p ih =>
    rw [upsertPoints_append_single] at h
    rw [batchApply_append_single]
    rcases mem_upsertOne h with rfl | ⟨hmem, hbeq⟩
    · unfold replacePt
      rw [batchApply_id]
      simp
    · rw [ih q hmem]
      unfold replacePt
      rw [hbeq]
      simp

lemma hasId_upsertOne_self (db : List Point) (p : Point) :
    hasId (upsertOne db p) p.id = true := by
  unfold hasId upsertOne
  split
  · next hany =>
    obtain ⟨x, hx, hbeq⟩ := List.any_eq_true.mp hany
    refine List.any_eq_true.mpr ⟨replacePt p x, List.mem_map_of_mem _ hx, ?_⟩
    rw [replacePt_id, hbeq]
  · exact List.any_eq_true.mpr ⟨p, List.mem_append_right _ (List.mem_singleton_self p),
      beq_self_eq_true _⟩

lemma hasId_upsertOne_mono {db : List Point} {i : String} (p : Point)
    (h : hasId db i = true) : hasId (upsertOne db p) i = true := by
  unfold hasId at h ⊢
  obtain ⟨x, hx, hbeq⟩ := List.any_eq_true.mp h
  unfold upsertOne
  split
  · exact List.any_eq_true.mpr ⟨replacePt p x, List.mem_map_of_mem _ hx,
      by rw [replacePt_id]; exact hbeq⟩
  · exact List.any_eq_true.mpr ⟨x, List.mem_append_left _ hx, hbeq⟩

lemma hasId_upsertPoints_mono {db : List Point} {i : String} (L : List Point)
    (h : hasId db i = true) : hasId (upsertPoints db L) i = true := by
  induction L generalizing db with
  | nil => exact h
  | cons p T ih => exact ih (hasId_upsertOne_mono p h)

/-- After a batch upsert, every batch id is present in the store. -/
lemma hasId_upsertPoints_all (L : List Point) (db : List Point) :
    ∀ p ∈ L, hasId (upsertPoints db L) p.id = true := by
  induction L generalizing db with
  | nil => intro p hp; cases hp
  | cons p T ih =>
    intro p' hp'
    rcases List.mem_cons.mp hp' with rfl | hp'
    · exact hasId_upsertPoints_mono T (hasId_upsertOne_self db p')
    · exact ih (upsertOne db p) p' hp'

lemma hasId_map_replacePt (db : List Point) (p : Point) (i : String) :
    hasId (db.map (replacePt p)) i = hasId db i := by
  unfold hasId
  induction db with
  | nil => rfl
  | cons x t ih => simp only [List.map_cons, List.any_cons, replacePt_id, ih]

/-- When every batch id is already stored, a batch upsert only rewrites the
stored points pointwise. -/
lemma upsertPoints_eq_map (L : List Point) (db : List Point)
    (h : ∀ p ∈ L, hasId db p.id = true) :
    upsertPoints db L = db.map (batchApply L) := by
  induction L generalizing db with
  | nil =>
    show db = db.map (fun q => q)
    rw [List.map_id']
  | cons p T ih =>
    have hp : db.any (fun q => q.id == p.id) = true := h p (List.mem_cons_self p T)
    show upsertPoints (upsertOne db p) T = _
    rw [upsertOne, if_pos hp]
    rw [ih (db.map (replacePt p)) (fun p' hp' => by
      rw [hasId_map_replacePt]
      exact h p' (List.mem_cons_of_mem p hp'))]
    rw [List.map_map]
    rfl

/-- Replaying an identical batch is a no-op on the store. -/
theorem upsertPoints_idem (L : List Point) (db : List Point) :
    upsertPoints (upsertPoints db L) L = upsertPoints db L := by
  rw [upsertPoints_eq_map L (upsertPoints db L) (hasId_upsertPoints_all L db)]
  calc (upsertPoints db L).map (batchApply L)
      = (upsertPoints db L).map (fun q => q) := by
        apply List.map_congr_left
        intro q hq
        exact batchApply_of_mem_upsertPoints L db q hq
    _ = upsertPoints db L := List.map_id' _

lemma normSqZ_nonneg (a : List Int) : 0 ≤ normSqZ a := by
  unfold normSqZ dotZ
  induction a with
  | nil => simp
  | cons x t ih =>
    rw [List.zip_cons_cons, List.map_cons, List.sum_cons]
    exact add_nonneg (mul_self_nonneg x) ih

lemma fracLe_total (n1 d1 n2 d2 : Int) : fracLe n1 d1 n2 d2 ∨ fracLe n2 d2 n1 d1 := by
  unfold fracLe
  by_cases h1 : d1 = 0 <;> by_cases h2 : d2 = 0
  · left
    rw [if_pos h1, if_pos h2]
    trivial
  · rcases le_total 0 n2 with h | h
    · left
      rw [if_pos h1, if_neg h2]
      exact h
    · right
      rw [if_neg h2, if_pos h1]
      exact h
  · rcases le_total 0 n1 with h | h
    · right
      rw [if_pos h2, if_neg h1]
      exact h
    · left
      rw [if_neg h1, if_pos h2]
      exact h
  · rcases le_total (n1 * d2) (n2 * d1) with h | h
    · left
      rw [if_neg h1, if_neg h2]
      exact h
    · right
      rw [if_neg h2, if_neg h1]
      exact h

lemma fracLe_trans {n1 d1 n2 d2 n3 d3 : Int} (hd1 : 0 ≤ d1) (hd2 : 0 ≤ d2)
    (hd3 : 0 ≤ d3) (h12 : fracLe n1 d1 n2 d2) (h23 : fracLe n2 d2 n3 d3) :
    fracLe n1 d1 n3 d3 := by
  unfold fracLe at h12 h23 ⊢
  by_cases h1 : d1 = 0
  · rw [if_pos h1] at h12 ⊢
    by_cases h3 : d3 = 0
    · rw [if_pos h3]
      trivial
    · rw [if_neg h3]
      by_cases h2 : d2 = 0
      · rw [if_pos h2] at h23
        rw [if_neg h3] at h23
        exact h23
      · rw [if_neg h2] at h12 h23
        rw [if_neg h3] at h23
        have hp2 : 0 < d2 := lt_of_le_of_ne hd2 (fun e => h2 e.symm)
        have hp3 : 0 < d3 := lt_of_le_of_ne hd3 (fun e => h3 e.symm)
        nlinarith
  · rw [if_neg h1] at h12 ⊢
    have hp1 : 0 < d1 := lt_of_le_of_ne hd1 (fun e => h1 e.symm)
    by_cases h2 : d2 = 0
    · rw [if_pos h2] at h12 h23
      by_cases h3 : d3 = 0
      · rw [if_pos h3]
        trivial
      · rw [if_neg h3] at h23
        rw [if_neg h3]
        have hp3 : 0 < d3 := lt_of_le_of_ne hd3 (fun e => h3 e.symm)
        nlinarith
    · rw [if_neg h2] at h12 h23
      have hp2 : 0 < d2 := lt_of_le_of_ne hd2 (fun e => h2 e.symm)
      by_cases h3 : d3 = 0
      · rw [if_pos h3] at h23
        rw [if_pos h3]
        nlinarith
      · rw [if_neg h3] at h23
        rw [if_neg h3]
        have hp3 : 0 < d3 := lt_of_le_of_ne hd3 (fun e => h3 e.symm)
        nlinarith [mul_le_mul_of_nonneg_right h12 (le_of_lt hp3),
          mul_le_mul_of_nonneg_right h23 (le_of_lt hp1)]

lemma extractStep_of_empty (acc : List String × List String) (p : Point)
    (h : textOf p = "") : extractStep acc p = acc := by
  unfold extractStep
  rw [if_pos h]

lemma extractStep_of_nonempty (acc : List String × List String) (p : Point)
    (h : ¬ textOf p = "") : extractStep acc p = (acc.1 ++ [textOf p],
      if sourceOf p = "" then acc.2
      else if sourceOf p ∈ acc.2 then acc.2 else acc.2 ++ [sourceOf p]) := by
  unfold extractStep
  rw [if_neg h]

lemma textOpt_of_empty (p : Point) (h : textOf p = "") : textOpt p = none := by
  unfold textOpt
  rw [if_pos h]

lemma textOpt_of_nonempty (p : Point) (h : ¬ textOf p = "") :
    textOpt p = some (textOf p) := by
  unfold textOpt
  rw [if_neg h]

lemma extract_foldl_contexts (l : List Point) (c s : List String) :
    (l.foldl extractStep (c, s)).1 = c ++ l.filterMap textOpt := by
  induction l generalizing c s with
  | nil => simp
  | cons p t ih =>
    show (t.foldl extractStep (extractStep (c, s) p)).1 = _
    by_cases h : textOf p = ""
    · rw [extractStep_of_empty _ _ h, ih, List.filterMap_cons, textOpt_of_empty _ h]
    · rw [extractStep_of_nonempty _ _ h, ih, List.filterMap_cons, textOpt_of_nonempty _ h,
        List.append_assoc]
      rfl

lemma extract_foldl_sources_sub (l : List Point) (c s : List String) (x : String)
    (h : x ∈ (l.foldl extractStep (c, s)).2) :
    x ∈ s ∨ ∃ p ∈ l, textOf p ≠ "" ∧ sourceOf p = x ∧ sourceOf p ≠ "" := by
  induction l generalizing c s with
  | nil => exact Or.inl h
  | cons p t ih =>
    have h' : x ∈ (t.foldl extractStep (extractStep (c, s) p)).2 := h
    by_cases ht : textOf p = ""
    · rw [extractStep_of_empty _ _ ht] at h'
      rcases ih _ _ h' with hx | ⟨p', hp', hprops⟩
      · exact Or.inl hx
      · exact Or.inr ⟨p', List.mem_cons_of_mem p hp', hprops⟩
    · rw [extractStep_of_nonempty _ _ ht] at h'
      rcases ih _ _ h' with hx | ⟨p', hp', hprops⟩
      · by_cases hs : sourceOf p = ""
        · rw [if_pos hs] at hx
          exact Or.inl hx
        · rw [if_neg hs] at hx
          by_cases hmem : sourceOf p ∈ s
          · rw [if_pos hmem] at hx
            exact Or.inl hx
          · rw [if_neg hmem] at hx
            rcases List.mem_append.mp hx with hx | hx
            · exact Or.inl hx
            · exact Or.inr ⟨p, List.mem_cons_self p t,
                ht, (List.mem_singleton.mp hx).symm, hs⟩
      · exact Or.inr ⟨p', List.mem_cons_of_mem p hp', hprops⟩

lemma processEventsAux_no_gates (cfg : FunctionConfig) (h1 : cfg.throttle = none)
    (h2 : cfg.rate_limit = none) (admitted : List IngestEvent) (events : List IngestEvent) :
    processEventsAux cfg admitted events = events.map (fun e => (e, true)) := by
  induction events generalizing admitted with
  | nil => rfl
  | cons e rest ih =>
    show (e, throttleOk cfg.throttle admitted e && rateLimitOk cfg.rate_limit admitted e) ::
      processEventsAux cfg _ rest = _
    rw [h1, h2]
    show (e, true && true) :: _ = _
    rw [List.map_cons]
    exact congrArg _ (ih _)

lemma bytesVal_lt : ∀ l : List Nat, bytesVal l < 256 ^ l.length
  | [] => by simp [bytesVal]
  | b :: t => by
    have h1 : b % 256 ≤ 255 := Nat.le_of_lt_succ (Nat.mod_lt _ (by norm_num))
    have h2 := bytesVal_lt t
    show b % 256 * 256 ^ t.length + bytesVal t < 256 ^ (t.length + 1)
    calc b % 256 * 256 ^ t.length + bytesVal t
        < b % 256 * 256 ^ t.length + 256 ^ t.length := by omega
      _ = (b % 256 + 1) * 256 ^ t.length := by ring
      _ ≤ 256 * 256 ^ t.length := Nat.mul_le_mul_right _ (by omega)
      _ = 256 ^ (t.length + 1) := by ring

lemma bytesVal_inj : ∀ l1 l2 : List Nat, l1.length = l2.length →
    bytesVal l1 = bytesVal l2 →
    l1.map (fun b => b % 256) = l2.map (fun b => b % 256)
  | [], [], _, _ => rfl
  | [], _ :: _, hlen, _ => by cases hlen
  | _ :: _, [], hlen, _ => by cases hlen
  | b1 :: t1, b2 :: t2, hlen, hval => by
    have hlen' : t1.length = t2.length := by
      simpa using hlen
    have hP : (0 : Nat) < 256 ^ t1.length := Nat.pos_pow_of_pos _ (by norm_num)
    have hr1 : bytesVal t1 < 256 ^ t1.length := bytesVal_lt t1
    have hr2 : bytesVal t2 < 256 ^ t1.length := hlen' ▸ bytesVal_lt t2
    have hval' : b1 % 256 * 256 ^ t1.length + bytesVal t1
        = b2 % 256 * 256 ^ t1.length + bytesVal t2 := by
      have := hval
      unfold bytesVal at this
      rw [hlen'] at this ⊢
      exact this
    have hhead : b1 % 256 = b2 % 256 := by
      have e1 : (b1 % 256 * 256 ^ t1.length + bytesVal t1) / 256 ^ t1.length
          = b1 % 256 := by
        rw [Nat.mul_comm, Nat.mul_add_div hP, Nat.div_eq_of_lt hr1]
        omega
      have e2 : (b2 % 256 * 256 ^ t1.length + bytesVal t2) / 256 ^ t1.length
          = b2 % 256 := by
        rw [Nat.mul_comm, Nat.mul_add_div hP, Nat.div_eq_of_lt hr2]
        omega
      rw [← e1, ← e2, hval']
    have htail : bytesVal t1 = bytesVal t2 := by
      have := hval'
      rw [hhead] at this
      omega
    rw [List.map_cons, List.map_cons, bytesVal_inj t1 t2 hlen' htail]
    show b1 % 256 :: _ = b2 % 256 :: _
    rw [hhead]

lemma uuid5bytes_length (ns : List Nat) (name : String) :
    (uuid5bytes ns name).length = 16 := by
  unfold uuid5bytes
  rw [List.length_map, List.length_range]

lemma byteHex_mod (b : Nat) : byteHex (b % 256) = byteHex b := by
  unfold byteHex
  have h1 : b % 256 / 16 % 16 = b / 16 % 16 := by omega
  have h2 : b % 256 % 16 = b % 16 := by omega
  rw [h1, h2]

lemma uuidFormat_map_mod (bs : List Nat) :
    uuidFormat (bs.map (fun b => b % 256)) = uuidFormat bs := by
  have hcomp : ∀ l : List Nat, (l.map (fun b => b % 256)).map byteHex = l.map byteHex := by
    intro l
    rw [List.map_map]
    apply List.map_congr_left
    intro b _
    exact byteHex_mod b
  unfold uuidFormat
  simp only [← List.map_take, ← List.map_drop, hcomp]

set_option maxRecDepth 40000 in
/-- The uuid5 embedding reproduces the RFC 4122 / CPython reference vector
`uuid5(NAMESPACE_DNS, "python.org") = 886313e1-3b8a-5372-9b90-0c9aee199e5d`. -/
lemma uuid5_dns_reference_vector :
    uuid5 NAMESPACE_DNS "python.org" = "886313e1-3b8a-5372-9b90-0c9aee199e5d" := by
  decide

/-! ## Claim C1 -/

set_option maxRecDepth 40000 in
/-- C1: for every `source_id` and chunk index `i`, the point id used by the
ingest pipeline's upsert step is `uuid5(NAMESPACE_URL, "{source_id}:{i}")` —
a pure function of `(source_id, index)`, hence identical across runs — and
the derivation agrees with the fixed reference value
`uuid5(NAMESPACE_URL, "A:0") = 7777fa5b-455e-5013-bd16-d5a4d036ad1d`
(computed independently by CPython's `uuid` module). -/
theorem ingest_point_id_is_uuid5 (s : String) (n i : Nat) (h : i < n) :
    (ingestIds s n)[i]? = some (uuid5 NAMESPACE_URL (s ++ ":" ++ toString i)) ∧
    uuid5 NAMESPACE_URL "A:0" = "7777fa5b-455e-5013-bd16-d5a4d036ad1d" := by
  constructor
  · unfold ingestIds
    rw [List.getElem?_map, List.getElem?_range h]
    rfl
  · decide

set_option maxRecDepth 40000 in
/-- Witness for C1 at `source_id = "A"`, one chunk, index `0`. -/
theorem ingest_point_id_is_uuid5_witness :
    (0 < 1 ∧
      ((ingestIds "A" 1)[0]? = some (uuid5 NAMESPACE_URL ("A" ++ ":" ++ toString 0)) ∧
        uuid5 NAMESPACE_URL "A:0" = "7777fa5b-455e-5013-bd16-d5a4d036ad1d")) :=
  ⟨by decide, ingest_point_id_is_uuid5 "A" 1 0 (by decide)⟩

/-! ## Claim C2 -/

lemma bytesVal_uuid5bytes_lt (ns : List Nat) (name : String) :
    bytesVal (uuid5bytes ns name) < 256 ^ 16 := by
  have hb := bytesVal_lt (uuid5bytes ns name)
  rwa [uuid5bytes_length] at hb

/-- C2 counterexample: it is false that any two distinct chunk indexes of the
same source always get different derived ids.  The ids carry only 16 bytes, so
the map `i ↦ uuid5(NAMESPACE_URL, "{source_id}:{i}")` on all of ℕ cannot be
injective (pigeonhole): for `source_id = "A"` two distinct indexes collide. -/
theorem derived_ids_collide_somewhere :
    ∃ i j : Nat, i ≠ j ∧
      uuid5 NAMESPACE_URL ("A" ++ ":" ++ toString i)
        = uuid5 NAMESPACE_URL ("A" ++ ":" ++ toString j) := by
  have hc : (Finset.range (256 ^ 16)).card < (Finset.range (256 ^ 16 + 1)).card := by
    rw [Finset.card_range, Finset.card_range]
    omega
  have hf : ∀ a ∈ Finset.range (256 ^ 16 + 1),
      bytesVal (uuid5bytes NAMESPACE_URL ("A" ++ ":" ++ toString a))
        ∈ Finset.range (256 ^ 16) :=
    fun a _ => Finset.mem_range.mpr
      (bytesVal_uuid5bytes_lt NAMESPACE_URL ("A" ++ ":" ++ toString a))
  obtain ⟨i, -, j, -, hne, heq⟩ := Finset.exists_ne_map_eq_of_card_lt_of_maps_to hc hf
  refine ⟨i, j, hne, ?_⟩
  have hm := bytesVal_inj _ _
    (by rw [uuid5bytes_length, uuid5bytes_length]) heq
  show uuidFormat (uuid5bytes NAMESPACE_URL ("A" ++ ":" ++ toString i))
      = uuidFormat (uuid5bytes NAMESPACE_URL ("A" ++ ":" ++ toString j))
  rw [← uuidFormat_map_mod, hm, uuidFormat_map_mod]

set_option maxRecDepth 400000 in
set_option maxHeartbeats 4000000 in
/-- C2 amended: the ids written for a source are a deterministic function of
`(source_id, chunk_count)`; the derived ids are pairwise distinct for all
indexes below 8 (verified computationally — distinctness for *all* pairs of
indexes cannot hold, see the counterexample, and in general holds only in the
absence of SHA-1 collisions); and re-ingesting the same
`(source_id, chunk_sequence)` leaves the stored state exactly unchanged. -/
theorem reingest_is_noop_and_ids_deterministic (embed : String → List Int)
    (cs cs' : RAGChunkAndSrc) (db : List Point)
    (hs : cs.sources_id = cs'.sources_id) (hn : cs.chunks.length = cs'.chunks.length) :
    ingestIds cs.sources_id cs.chunks.length
      = ingestIds cs'.sources_id cs'.chunks.length ∧
    (ingestIds "A" 8).Nodup ∧
    (ragUpsert embed cs (ragUpsert embed cs db).1).1 = (ragUpsert embed cs db).1 := by
  refine ⟨by rw [hs, hn], by decide, ?_⟩
  exact upsertPoints_idem _ _

/-- Witness for C2 (amended) at a one-chunk ingest of source `"A"` into an
empty store. -/
theorem reingest_is_noop_witness :
    ((RAGChunkAndSrc.mk ["hello"] "A").sources_id = (RAGChunkAndSrc.mk ["hello"] "A").sources_id ∧
      (RAGChunkAndSrc.mk ["hello"] "A").chunks.length = (RAGChunkAndSrc.mk ["hello"] "A").chunks.length) ∧
    (ingestIds (RAGChunkAndSrc.mk ["hello"] "A").sources_id (RAGChunkAndSrc.mk ["hello"] "A").chunks.length
      = ingestIds (RAGChunkAndSrc.mk ["hello"] "A").sources_id (RAGChunkAndSrc.mk ["hello"] "A").chunks.length ∧
    (ingestIds "A" 8).Nodup ∧
    (ragUpsert (fun _ => [1]) (RAGChunkAndSrc.mk ["hello"] "A")
        (ragUpsert (fun _ => [1]) (RAGChunkAndSrc.mk ["hello"] "A") []).1).1
      = (ragUpsert (fun _ => [1]) (RAGChunkAndSrc.mk ["hello"] "A") []).1) :=
  ⟨⟨rfl, rfl⟩, reingest_is_noop_and_ids_deterministic (fun _ => [1])
    (RAGChunkAndSrc.mk ["hello"] "A") (RAGChunkAndSrc.mk ["hello"] "A") [] rfl rfl⟩

/-! ## Claim C3 -/

/-- C3 counterexample: with the configuration actually registered for
`rag_ingest_pdf` (no `throttle=` argument — the `Throttle(count=2,
period=1 minute)` control is only a comment), five ingestion events for five
distinct sources within one minute are all admitted: 5 admitted, 0 deferred,
not the claimed 2 admitted / 3 deferred. -/
theorem five_events_all_admitted_not_two :
    admittedCount (processEvents rag_ingest_pdf_config fiveEvents) = 5 ∧
    deferredCount (processEvents rag_ingest_pdf_config fiveEvents) = 0 ∧
    admittedCount (processEvents rag_ingest_pdf_config fiveEvents) ≠ 2 := by
  refine ⟨by decide, by decide, by decide⟩

/-- C3 amended: the registered ingest function carries no throttle, so every
submitted ingestion event is admitted and none deferred; had the
commented-out `Throttle(count=2, period=1 minute)` been registered, the same
five events would yield exactly 2 admitted and 3 deferred. -/
theorem ingest_registration_has_no_throttle (events : List IngestEvent) :
    processEvents rag_ingest_pdf_config events = events.map (fun e => (e, true)) ∧
    rag_ingest_pdf_config.throttle = none ∧
    admittedCount (processEvents ingestConfigWithThrottle fiveEvents) = 2 ∧
    deferredCount (processEvents ingestConfigWithThrottle fiveEvents) = 3 := by
  exact ⟨processEventsAux_no_gates rag_ingest_pdf_config rfl rfl [] events,
    rfl, by decide, by decide⟩

/-! ## Claim C4 -/

/-- C4 counterexample: with the configuration actually registered (no
`rate_limit=` argument), two ingestion events for the same `source_id`
submitted 10 seconds apart are both admitted immediately — the second is not
deferred. -/
theorem same_source_second_event_admitted :
    processEvents rag_ingest_pdf_config [IngestEvent.mk 0 "S", IngestEvent.mk 10 "S"]
      = [(IngestEvent.mk 0 "S", true), (IngestEvent.mk 10 "S", true)] := by
  decide

/-- C4 amended: the registered ingest function carries no per-key rate limit,
so two ingestion events for the same `source_id` 10 seconds apart are both
admitted (and the query registration carries no admission gates either, so
query events are trivially never subject to such a gate); had the
commented-out `RateLimit(limit=1, period=2 hours)` been registered, the
second event would be deferred. -/
theorem ingest_registration_has_no_rate_limit (t : Nat) (s : String) :
    processEvents rag_ingest_pdf_config [IngestEvent.mk t s, IngestEvent.mk (t + 10) s]
      = [(IngestEvent.mk t s, true), (IngestEvent.mk (t + 10) s, true)] ∧
    rag_ingest_pdf_config.rate_limit = none ∧
    rag_query_pdf_ai_config.rate_limit = none ∧
    rag_query_pdf_ai_config.throttle = none ∧
    admittedCount (processEvents ingestConfigWithRateLimit
      [IngestEvent.mk 0 "S", IngestEvent.mk 10 "S"]) = 1 ∧
    deferredCount (processEvents ingestConfigWithRateLimit
      [IngestEvent.mk 0 "S", IngestEvent.mk 10 "S"]) = 1 := by
  refine ⟨?_, rfl, rfl, rfl, by decide, by decide⟩
  rw [processEvents, processEventsAux_no_gates rag_ingest_pdf_config rfl rfl]
  rfl

/-! ## Claim C6 -/

/-- C6 counterexample: constructing the store against an existing collection
of dimension 256 while requesting dims = 384 succeeds and leaves the
256-dimensional collection in place — no `DimensionMismatch` failure exists
in the constructor. -/
theorem init_accepts_mismatched_dims_silently :
    QdrantStorage.init (some (CollectionConfig.mk 256 Distance.cosine)) 384
      = some (CollectionConfig.mk 256 Distance.cosine) ∧
    (CollectionConfig.mk 256 Distance.cosine).size ≠ 384 := by
  decide

/-- C6 amended: collection setup is idempotent — the constructor creates the
named collection (with the requested dims and cosine metric) only when it is
absent and otherwise leaves the existing collection untouched — but it
performs no dimension check at all: an existing collection with different
dims is silently accepted, never reported as an error. -/
theorem init_creates_only_if_absent (server : Option CollectionConfig) (dims : Nat) :
    QdrantStorage.init none dims = some (CollectionConfig.mk dims Distance.cosine) ∧
    (∀ c, QdrantStorage.init (some c) dims = some c) ∧
    QdrantStorage.init (QdrantStorage.init server dims) dims
      = QdrantStorage.init server dims := by
  refine ⟨rfl, fun c => rfl, ?_⟩
  cases server <;> rfl

/-! ## Claim C5 -/

/-- C5 counterexample: with points stored from sources `A` and `B`,
`search_vectors(query, top_k=5)` — the only search operation the store
offers, and it accepts no filter argument — returns contexts from *both*
sources: the context `"tb"` is present and its only providing point carries
source `B`, so the result is not restricted to source `A`. -/
theorem search_returns_both_sources :
    (QdrantStorage.search_vectors (twoSourceDb "ta" "tb") [1, 1] 5).contexts = ["ta", "tb"] ∧
    "tb" ∈ (QdrantStorage.search_vectors (twoSourceDb "ta" "tb") [1, 1] 5).contexts ∧
    (QdrantStorage.search_vectors (twoSourceDb "ta" "tb") [1, 1] 5).sources = ["A", "B"] ∧
    (∀ p ∈ twoSourceDb "ta" "tb", textOf p = "tb" → sourceOf p = "B") := by
  refine ⟨by decide, by decide, by decide, by decide⟩

/-- C5 amended: `search_vectors` accepts only `(query_vector, top_k)` — there
is no source filter parameter — and the result mixes sources: for any
non-empty texts `tA`, `tB`, searching the two-source store returns both
contexts and tags both sources. -/
theorem search_vectors_has_no_source_filter (tA tB : String)
    (hA : ¬ tA = "") (hB : ¬ tB = "") :
    (QdrantStorage.search_vectors (twoSourceDb tA tB) [1, 1] 5).contexts = [tA, tB] ∧
    "B" ∈ (QdrantStorage.search_vectors (twoSourceDb tA tB) [1, 1] 5).sources := by
  have hA' : ¬ textOf (Point.mk "idA" [1, 0] (some (Payload.mk (some "A") (some tA)))) = "" := hA
  have hB' : ¬ textOf (Point.mk "idB" [0, 1] (some (Payload.mk (some "B") (some tB)))) = "" := hB
  have hq : qdrantSearch (twoSourceDb tA tB) [1, 1] (Int.toNat 5) = twoSourceDb tA tB := rfl
  constructor
  · show ((qdrantSearch (twoSourceDb tA tB) [1, 1] (Int.toNat 5)).foldl
      extractStep ([], [])).1 = [tA, tB]
    rw [hq, extract_foldl_contexts]
    unfold twoSourceDb
    rw [List.filterMap_cons, List.filterMap_cons,
      textOpt_of_nonempty _ hA', textOpt_of_nonempty _ hB']
    rfl
  · show "B" ∈ ((qdrantSearch (twoSourceDb tA tB) [1, 1] (Int.toNat 5)).foldl
      extractStep ([], [])).2
    rw [hq]
    have e1 : extractStep ([], [])
        (Point.mk "idA" [1, 0] (some (Payload.mk (some "A") (some tA)))) = ([tA], ["A"]) := by
      rw [extractStep_of_nonempty _ _ hA']
      rfl
    have e2 : extractStep ([tA], ["A"])
        (Point.mk "idB" [0, 1] (some (Payload.mk (some "B") (some tB)))) = ([tA, tB], ["A", "B"]) := by
      rw [extractStep_of_nonempty _ _ hB']
      rfl
    show "B" ∈ (List.foldl extractStep ([], []) (twoSourceDb tA tB)).2
    unfold twoSourceDb
    rw [List.foldl_cons, e1, List.foldl_cons, e2]
    show "B" ∈ (["A", "B"] : List String)
    decide

/-- Witness for C5 (amended) at `tA = "ta"`, `tB = "tb"`. -/
theorem search_vectors_has_no_source_filter_witness :
    (¬ "ta" = "") ∧ (¬ "tb" = "") ∧
    ((QdrantStorage.search_vectors (twoSourceDb "ta" "tb") [1, 1] 5).contexts = ["ta", "tb"] ∧
      "B" ∈ (QdrantStorage.search_vectors (twoSourceDb "ta" "tb") [1, 1] 5).sources) :=
  ⟨by decide, by decide,
    search_vectors_has_no_source_filter "ta" "tb" (by decide) (by decide)⟩

/-! ## Claim C7 -/

/-- C7 counterexample: the `contexts` sequence is *not* always the payload
text of the returned points in result order — a returned point whose payload
has no `text` is silently skipped.  In `emptyTextDb` the highest-similarity
hit has no text: the spec-side reading of the result texts is `["", "b"]`,
but `search_vectors` returns `["b"]`. -/
theorem contexts_skip_textless_top_hit :
    (QdrantStorage.search_vectors emptyTextDb [1, 0] 2).contexts = ["b"] ∧
    rankedTextsSpec emptyTextDb [1, 0] 2 = ["", "b"] ∧
    (QdrantStorage.search_vectors emptyTextDb [1, 0] 2).contexts
      ≠ rankedTextsSpec emptyTextDb [1, 0] 2 := by
  refine ⟨by decide, by decide, by decide⟩

/-- C7 amended: the engine result is the stored points stably sorted by
descending similarity key (ties broken by insertion order), truncated to
`top_k` — every returned point ranks at least as high as every point left
out — and `contexts` is the payload text of the returned points in result
order *except* that points with missing/empty text are skipped. -/
theorem search_ordering_and_contexts (db : List Point) (q : List Int) (k : Int) :
    List.Sorted (simRel q) (qdrantSearch db q k.toNat) ∧
    (∀ x ∈ qdrantSearch db q k.toNat,
      ∀ y ∈ (List.insertionSort (simRel q) db).drop k.toNat, simRel q x y) ∧
    (List.insertionSort (simRel q) db).Perm db ∧
    (QdrantStorage.search_vectors db q k).contexts
      = (qdrantSearch db q k.toNat).filterMap textOpt := by
  haveI : IsTotal Point (simRel q) := ⟨fun _ _ => fracLe_total _ _ _ _⟩
  haveI : IsTrans Point (simRel q) :=
    ⟨fun _ b _ h1 h2 => fracLe_trans (normSqZ_nonneg _) (normSqZ_nonneg b.vector)
      (normSqZ_nonneg _) h2 h1⟩
  refine ⟨?_, ?_, List.perm_insertionSort _ _, ?_⟩
  · exact (List.sorted_insertionSort (simRel q) db).sublist (List.take_sublist _ _)
  · intro x hx y hy
    exact (List.sorted_insertionSort (simRel q) db).rel_of_mem_take_of_mem_drop hx hy
  · show ((qdrantSearch db q k.toNat).foldl extractStep ([], [])).1 = _
    rw [extract_foldl_contexts]
    rfl

/-- Witness for C7 (amended) at the concrete store `emptyTextDb`, query
`[1, 0]`, `top_k = 2`. -/
theorem search_ordering_and_contexts_witness :
    List.Sorted (simRel [1, 0]) (qdrantSearch emptyTextDb [1, 0] (Int.toNat 2)) ∧
    (∀ x ∈ qdrantSearch emptyTextDb [1, 0] (Int.toNat 2),
      ∀ y ∈ (List.insertionSort (simRel [1, 0]) emptyTextDb).drop (Int.toNat 2),
        simRel [1, 0] x y) ∧
    (List.insertionSort (simRel [1, 0]) emptyTextDb).Perm emptyTextDb ∧
    (QdrantStorage.search_vectors emptyTextDb [1, 0] 2).contexts
      = (qdrantSearch emptyTextDb [1, 0] (Int.toNat 2)).filterMap textOpt :=
  search_ordering_and_contexts emptyTextDb [1, 0] 2

/-! ## Claim C8 -/

/-- C8 counterexample: a call with `top_k = 0` (and likewise a negative
`top_k`) is not rejected: `search_vectors` performs no validation and simply
returns the empty result. -/
theorem topk_zero_returns_empty_not_error :
    QdrantStorage.search_vectors (twoSourceDb "ta" "tb") [1, 1] 0
      = RAGSearchResult.mk [] [] ∧
    QdrantStorage.search_vectors (twoSourceDb "ta" "tb") [1, 1] (-3)
      = RAGSearchResult.mk [] [] := by
  refine ⟨by decide, by decide⟩

/-- C8 amended: `search_vectors` performs no `top_k` validation: every call
with `top_k ≤ 0` silently produces the empty result (the clamp the
specification forbids), for any store and query; no error value exists in the
operation. -/
theorem search_vectors_no_topk_validation (db : List Point) (q : List Int)
    (k : Int) (hk : k ≤ 0) :
    QdrantStorage.search_vectors db q k = RAGSearchResult.mk [] [] := by
  have h0 : k.toNat = 0 := Int.toNat_of_nonpos hk
  show RAGSearchResult.mk ((qdrantSearch db q k.toNat).foldl extractStep ([], [])).1
    ((qdrantSearch db q k.toNat).foldl extractStep ([], [])).2 = RAGSearchResult.mk [] []
  rw [h0]
  rfl

/-- Witness for C8 (amended) at a concrete store and `top_k = -7`. -/
theorem search_vectors_no_topk_validation_witness :
    (-7 : Int) ≤ 0 ∧
    QdrantStorage.search_vectors (twoSourceDb "ta" "tb") [1, 1] (-7)
      = RAGSearchResult.mk [] [] :=
  ⟨by decide, search_vectors_no_topk_validation (twoSourceDb "ta" "tb") [1, 1] (-7) (by decide)⟩

/-! ## Claim C9 -/

/-- C9: an ingestion event whose `pdf_path` does not exist fails the run
immediately: the `Load` step raises before any loading or chunking, the run
terminates `Failed` with the input error after exactly one `Load` attempt and
zero upsert attempts; by contrast a transient (transport) failure in the
embed/upsert step is retried — with an attempt cap of at least 2, a step
failing transiently once and then succeeding completes after exactly 2
attempts.  (The attempt policy itself is the external engine's, modelled from
the spec; the raise-on-missing-path behaviour is src/main.py:58-60.) -/
theorem missing_pdf_fails_run_immediately (fileExists : String → Bool)
    (loader : String → List String) (pdf_path : String) (sid : Option String)
    (upsertOutcome : RAGChunkAndSrc → Nat → Except StepError RAGUpsertResult)
    (cap : Nat) (hcap : 1 ≤ cap) (hmiss : fileExists pdf_path = false) :
    runIngest (fun _ => ragLoad fileExists loader pdf_path sid) upsertOutcome cap
      = (RunState.failed StepError.input, 1, 0) ∧
    (∀ (r : RAGUpsertResult) (cap2 : Nat), 2 ≤ cap2 →
      attemptStep (fun k => if k = 0 then Except.error StepError.transient
        else Except.ok r) 0 cap2 = (Except.ok r, 2)) := by
  constructor
  · obtain ⟨m, rfl⟩ : ∃ m, cap = m + 1 := ⟨cap - 1, by omega⟩
    have hload : (fun _ : Nat => ragLoad fileExists loader pdf_path sid)
        = fun _ => Except.error StepError.input := by
      funext k
      unfold ragLoad
      rw [hmiss]
      rfl
    unfold runIngest
    rw [hload]
    rfl
  · intro r cap2 hcap2
    obtain ⟨m2, rfl⟩ : ∃ m2, cap2 = m2 + 2 := ⟨cap2 - 2, by omega⟩
    rfl

/-- Witness for C9 at a concrete missing path, attempt cap 4. -/
theorem missing_pdf_fails_run_immediately_witness :
    1 ≤ 4 ∧ ((fun _ : String => false) "doc.pdf" = false) ∧
    (runIngest (fun _ => ragLoad (fun _ => false) (fun _ => []) "doc.pdf" none)
        (fun _ _ => Except.ok (RAGUpsertResult.mk 0)) 4
      = (RunState.failed StepError.input, 1, 0) ∧
    (∀ (r : RAGUpsertResult) (cap2 : Nat), 2 ≤ cap2 →
      attemptStep (fun k => if k = 0 then Except.error StepError.transient
        else Except.ok r) 0 cap2 = (Except.ok r, 2))) :=
  ⟨by decide, rfl, missing_pdf_fails_run_immediately (fun _ => false) (fun _ => [])
    "doc.pdf" none (fun _ _ => Except.ok (RAGUpsertResult.mk 0)) 4 (by decide) rfl⟩

/-! ## Claim C10 -/

/-- C10: `search_vectors` silently omits every returned point whose payload
lacks a non-empty `text` (dropping its source tag along with it) and omits
empty-string source tags; consequently no context is ever the empty string,
every reported source is a non-empty tag of a returned point that
contributed a context, and the result can contain fewer than `top_k`
contexts even when the store holds at least `top_k` points (concretely:
`threePointDb` has 3 points but `top_k = 3` yields only 2 contexts, and only
source `"A"` is reported). -/
theorem search_omits_textless_and_empty_sources (db : List Point) (q : List Int) (k : Int) :
    (∀ x ∈ (QdrantStorage.search_vectors db q k).contexts, x ≠ "") ∧
    (QdrantStorage.search_vectors db q k).contexts
      = (qdrantSearch db q k.toNat).filterMap textOpt ∧
    (∀ x ∈ (QdrantStorage.search_vectors db q k).sources,
      x ≠ "" ∧ ∃ p ∈ qdrantSearch db q k.toNat, textOf p ≠ "" ∧ sourceOf p = x) ∧
    threePointDb.length = 3 ∧
    (QdrantStorage.search_vectors threePointDb [1, 0] 3).contexts = ["t1", "t3"] ∧
    (QdrantStorage.search_vectors threePointDb [1, 0] 3).sources = ["A"] := by
  have hchar : (QdrantStorage.search_vectors db q k).contexts
      = (qdrantSearch db q k.toNat).filterMap textOpt := by
    show ((qdrantSearch db q k.toNat).foldl extractStep ([], [])).1 = _
    rw [extract_foldl_contexts]
    rfl
  refine ⟨?_, hchar, ?_, by decide, by decide, by decide⟩
  · intro x hx
    rw [hchar] at hx
    obtain ⟨p, _, hp⟩ := List.mem_filterMap.mp hx
    by_cases h : textOf p = ""
    · rw [textOpt_of_empty p h] at hp
      cases hp
    · rw [textOpt_of_nonempty p h] at hp
      intro hx0
      apply h
      rw [Option.some_inj.mp hp, hx0]
  · intro x hx
    have hx' : x ∈ ((qdrantSearch db q k.toNat).foldl extractStep ([], [])).2 := hx
    rcases extract_foldl_sources_sub _ _ _ _ hx' with h0 | ⟨p, hp, ht, hs, hs'⟩
    · cases h0
    · exact ⟨hs ▸ hs', p, hp, ht, hs⟩

/-- Witness for C10 at the concrete store `threePointDb`, query `[1, 0]`,
`top_k = 3`. -/
theorem search_omits_textless_and_empty_sources_witness :
    (∀ x ∈ (QdrantStorage.search_vectors threePointDb [1, 0] 3).contexts, x ≠ "") ∧
    (QdrantStorage.search_vectors threePointDb [1, 0] 3).contexts
      = (qdrantSearch threePointDb [1, 0] (Int.toNat 3)).filterMap textOpt ∧
    (∀ x ∈ (QdrantStorage.search_vectors threePointDb [1, 0] 3).sources,
      x ≠ "" ∧ ∃ p ∈ qdrantSearch threePointDb [1, 0] (Int.toNat 3),
        textOf p ≠ "" ∧ sourceOf p = x) ∧
    threePointDb.length = 3 ∧
    (QdrantStorage.search_vectors threePointDb [1, 0] 3).contexts = ["t1", "t3"] ∧
    (QdrantStorage.search_vectors threePointDb [1, 0] 3).sources = ["A"] :=
  search_omits_textless_and_empty_sources threePointDb [1, 0] 3
